import Mathlib

/-!
# Verification of `netcat_transfer.py`

A shallow embedding of the transfer and discovery logic of
`netcat_transfer.py` (class `NetcatTransferApp`), together with theorems
settling the specification's claims about it.

Modelling conventions:
* Python strings are Lean `String` (a list of unicode characters); raw
  byte payloads (UDP datagrams, TCP streams, file contents) are `List Nat`
  with every element intended to be `< 256`.
* `str.split(sep)` on a one-character separator is `pySplit`;
  `sep.join(parts)` is `pyJoinSep`; `os.path.join` is `pyJoin`.
* `bytes.decode('utf-8')` is `utf8Decode` (returning `none` where Python
  raises `UnicodeDecodeError`); `str.encode('utf-8')` is `utf8Encode`.
* Randomness (`random.choices`) is passed in explicitly as the sequence
  of draws.
* The GUI is out of scope: each handler is modelled as a function of the
  values it reads from the widgets and from the network.
-/

namespace NetcatTransfer

/-! ## List and string utilities mirroring the Python primitives used -/

/-- Python `s.split(sep)` for a single-character separator `sep`:
splits at every occurrence, keeping empty fields, and always returns a
non-empty list (`"".split(sep) == [""]`). -/
def pySplit (sep : Char) : List Char → List (List Char)
  | [] => [[]]
  | c :: rest =>
    if c = sep then
      [] :: pySplit sep rest
    else
      match pySplit sep rest with
      | [] => [[c]]
      | h :: t => (c :: h) :: t

/-- Python `sep.join(parts)` for a single-character separator. -/
def pyJoinSep (sep : Char) : List (List Char) → List Char
  | [] => []
  | [x] => x
  | x :: xs => x ++ sep :: pyJoinSep sep xs

/-- Python `s.startswith(p)`, on explicit character/byte lists. -/
def startsWithList {α : Type} [DecidableEq α] : List α → List α → Bool
  | [], _ => true
  | _ :: _, [] => false
  | p :: ps, x :: xs => if p = x then startsWithList ps xs else false

/-- Whether `needle` occurs as a contiguous run inside `hay`
(Python `needle in hay` for bytes). -/
def bytesContain (needle : List Nat) : List Nat → Bool
  | [] => needle.isEmpty
  | x :: xs => startsWithList needle (x :: xs) || bytesContain needle xs

/-- Python `os.path.join(dir, name)` for a relative `name`:
`join("", n) = n`; a directory already ending in `/` is not doubled. -/
def pyJoin (dir name : String) : String :=
  if dir = "" then name
  else if dir.data.getLast? = some '/' then dir ++ name
  else dir ++ "/" ++ name

/-! ## UTF-8 (Python `str.encode('utf-8')` / `bytes.decode('utf-8')`) -/

/-- UTF-8 encoding of one unicode scalar value. -/
def utf8EncodeChar (c : Char) : List Nat :=
  if c.toNat < 128 then [c.toNat]
  else if c.toNat < 2048 then [192 + c.toNat / 64, 128 + c.toNat % 64]
  else if c.toNat < 65536 then
    [224 + c.toNat / 4096, 128 + c.toNat / 64 % 64, 128 + c.toNat % 64]
  else
    [240 + c.toNat / 262144, 128 + c.toNat / 4096 % 64, 128 + c.toNat / 64 % 64,
     128 + c.toNat % 64]

/-- UTF-8 encoding of a character list. -/
def utf8EncodeList : List Char → List Nat
  | [] => []
  | c :: cs => utf8EncodeChar c ++ utf8EncodeList cs

/-- Python `s.encode('utf-8')`. -/
def utf8Encode (s : String) : List Nat := utf8EncodeList s.data

/-- One step of strict UTF-8 decoding: decode the multi-byte sequence
led by `b` and prepend it to the decoding (`go`) of the remaining bytes.
Rejects continuation bytes in lead position, overlong forms, surrogates
and out-of-range lead bytes, exactly as Python's strict `'utf-8'` codec. -/
def utf8DecodeStep (go : List Nat → Option (List Char)) (b : Nat) (rest : List Nat) :
    Option (List Char) :=
  if b < 128 then
    (go rest).map (fun cs => Char.ofNat b :: cs)
  else if b < 194 then
    none
  else if b < 224 then
    match rest with
    | b1 :: rest1 =>
      if 128 ≤ b1 ∧ b1 < 192 then
        (go rest1).map (fun cs => Char.ofNat ((b - 192) * 64 + (b1 - 128)) :: cs)
      else none
    | [] => none
  else if b < 240 then
    match rest with
    | b1 :: b2 :: rest2 =>
      if (128 ≤ b1 ∧ b1 < 192) ∧ (128 ≤ b2 ∧ b2 < 192) then
        if 2048 ≤ (b - 224) * 4096 + (b1 - 128) * 64 + (b2 - 128) ∧
            ¬ (55296 ≤ (b - 224) * 4096 + (b1 - 128) * 64 + (b2 - 128) ∧
               (b - 224) * 4096 + (b1 - 128) * 64 + (b2 - 128) ≤ 57343) then
          (go rest2).map
            (fun cs => Char.ofNat ((b - 224) * 4096 + (b1 - 128) * 64 + (b2 - 128)) :: cs)
        else none
      else none
    | _ => none
  else if b < 245 then
    match rest with
    | b1 :: b2 :: b3 :: rest3 =>
      if (128 ≤ b1 ∧ b1 < 192) ∧ (128 ≤ b2 ∧ b2 < 192) ∧ (128 ≤ b3 ∧ b3 < 192) then
        if 65536 ≤ (b - 240) * 262144 + (b1 - 128) * 4096 + (b2 - 128) * 64 + (b3 - 128) ∧
            (b - 240) * 262144 + (b1 - 128) * 4096 + (b2 - 128) * 64 + (b3 - 128) < 1114112 then
          (go rest3).map
            (fun cs =>
              Char.ofNat
                ((b - 240) * 262144 + (b1 - 128) * 4096 + (b2 - 128) * 64 + (b3 - 128)) :: cs)
        else none
      else none
    | _ => none
  else none

/-- Fuel-indexed strict UTF-8 decoding; one unit of fuel is spent per
decoded character, so any `fuel ≥` number of bytes is enough. -/
def utf8DecodeAux : Nat → List Nat → Option (List Char)
  | _, [] => some []
  | 0, _ :: _ => none
  | fuel + 1, b :: rest => utf8DecodeStep (utf8DecodeAux fuel) b rest

/-- Strict UTF-8 decoding, Python `bytes.decode('utf-8')`: returns
`none` exactly where Python raises `UnicodeDecodeError`. -/
def utf8Decode (l : List Nat) : Option (List Char) :=
  utf8DecodeAux l.length l

/-! ## PIN generation (`generate_pin`, line 109-111) -/

/-- Python `string.digits`. -/
def string_digits : String := "0123456789"

/-- `generate_pin` (line 109-111): `''.join(random.choices(string.digits, k=6))`.
The six random draws of `random.choices` are passed in as `cs`: draw `i`
picks element `cs i` of `string.digits`. -/
def generate_pin (cs : Fin 6 → Fin 10) : String :=
  String.mk ((List.finRange 6).map fun i =>
    string_digits.data.get (Fin.cast (by rfl) (cs i)))

/-! ## Discovery listener (`start_discovery_listener`, lines 689-716) -/

/-- The `discovered_peers` dict, keyed by peer IP (lookup view of a
Python dict; `discovered_peers[ip] = pin` is an upsert). -/
def Peers : Type := String → Option String

/-- Python dict item assignment `m[k] = v`. -/
def dictInsert (m : Peers) (k v : String) : Peers :=
  fun x => if x = k then some v else m x

/-- Observable outcome of handling one discovery datagram:
* `upserted ip pin`: the dict write `self.discovered_peers[ip] = pin`
  plus the log line `"Discovered peer: ..."` (lines 706-709);
* `droppedSilently`: wrong prefix or fewer than 3 colon fields — no
  state change and no log output (the `if` bodies are skipped);
* `decodeErrorLogged`: `data.decode('utf-8')` raised, caught by
  `except Exception` which logs `"Discovery error: ..."` (lines 712-714,
  with `discovery_running` true); the loop continues. -/
inductive StepResult : Type
  | upserted (ip pin : String)
  | droppedSilently
  | decodeErrorLogged
  deriving DecidableEq, Repr

/-- The literal prefix `"DISCOVERY:"` checked by `message.startswith`. -/
def discoveryTag : List Char := "DISCOVERY:".data

/-- One iteration of the receive loop of `start_discovery_listener`
(lines 698-714) applied to one datagram: decode as UTF-8, check the
`DISCOVERY:` prefix, split on `':'`, require at least 3 parts, and
upsert `parts[1] -> parts[2]` into `discovered_peers`. -/
def discovery_step (peers : Peers) (datagram : List Nat) : Peers × StepResult :=
  match utf8Decode datagram with
  | none => (peers, .decodeErrorLogged)
  | some message =>
    if startsWithList discoveryTag message then
      match pySplit ':' message with
      | _ :: p1 :: p2 :: _ =>
        (dictInsert peers (String.mk p1) (String.mk p2),
         .upserted (String.mk p1) (String.mk p2))
      | _ => (peers, .droppedSilently)
    else (peers, .droppedSilently)

/-! ## Discovery broadcast (`broadcast_discovery`, lines 718-731) -/

/-- The message `f"DISCOVERY:{self.local_ip}:{self.pin_code}"` (line 723). -/
def discovery_message (ip pin : String) : String :=
  "DISCOVERY:" ++ ip ++ ":" ++ pin

/-- Broadcast address computation (lines 725-726):
`'.'.join(self.local_ip.split('.')[:-1]) + '.255'`. -/
def broadcast_ip (ip : String) : String :=
  String.mk (pyJoinSep '.' (pySplit '.' ip.data).dropLast) ++ ".255"

/-- `broadcast_discovery` (lines 718-731): the list of UDP datagrams
sent, each as `((destination address, destination port), payload bytes)`.
The code performs exactly one `sendto` of the UTF-8 encoded message to
`(broadcast_ip, 12346)`. -/
def broadcast_discovery (local_ip pin_code : String) : List ((String × Nat) × List Nat) :=
  [((broadcast_ip local_ip, 12346), utf8Encode (discovery_message local_ip pin_code))]

/-! ## Sending (`send_file`, lines 568-624) -/

/-- The observable effect of a successful `send_file` invocation: one
TCP connection to `dest`, carrying `stream` (the bytes `nc` reads from
the redirected source file and writes to the socket). -/
structure SendAttempt : Type where
  dest : String × Nat
  stream : List Nat
  deriving DecidableEq, Repr

/-- `send_file` (lines 568-624) for an existing, readable source file
whose contents are `fileBytes`. The handler validates that the receiver
IP and PIN entries are non-empty (returning with an error popup and no
network activity otherwise — `none` here), then runs
`nc <receiver_ip> 12345 < file`: one outbound TCP connection to port
12345 whose stream is exactly the file's bytes. The PIN entry is read
but never placed on the wire. -/
def send_file (receiver_ip receiver_pin : String) (fileBytes : List Nat) :
    Option SendAttempt :=
  if receiver_ip = "" then none
  else if receiver_pin = "" then none
  else some { dest := (receiver_ip, 12345), stream := fileBytes }

/-! ## Receiving (`start_receiving`, lines 626-687) -/

/-- Outcome reported by the receive thread: `success` when the `nc`
process exits 0 (log + popup `"File received and saved to: ..."`),
`failed` when it exits non-zero (lines 673-679). -/
inductive ReceiveOutcome : Type
  | success
  | failed
  deriving DecidableEq, Repr

/-- The observable effect of one `start_receiving` invocation:
the destination path, the bytes written to the file at that path
(the shell redirection `> save_path` writes everything `nc` receives),
and the reported outcome. -/
structure ReceiveResult : Type where
  savePath : String
  written : List Nat
  outcome : ReceiveOutcome
  deriving DecidableEq, Repr

/-- `start_receiving` (lines 626-687). `expected_pin` is the (stripped)
PIN entry: if empty, an error popup is shown and no listener starts
(`none`). Otherwise the thread builds
`save_path = os.path.join(save_folder, "received_file_" + timestamp)`
(timestamp format `%Y%m%d_%H%M%S`, passed in here), runs
`nc -l -p 12345 > save_path`, which writes every byte received on the
accepted connection (`incoming`) into the file, and reports success iff
`nc` exits 0 (`exitCode`). The expected PIN is logged but never compared
against anything on the wire. -/
def start_receiving (expected_pin save_folder timestamp : String)
    (incoming : List Nat) (exitCode : Nat) : Option ReceiveResult :=
  if expected_pin = "" then none
  else some
    { savePath := pyJoin save_folder ("received_file_" ++ timestamp)
      written := incoming
      outcome := if exitCode = 0 then .success else .failed }

/-! ## Spec-side wire layout, for exhibiting concrete connection contents -/

/-- Big-endian encoding of `n` in `k` bytes. -/
def natToBE : Nat → Nat → List Nat
  | 0, _ => []
  | k + 1, n => natToBE k (n / 256) ++ [n % 256]

/-- Modelled from the spec: the recommended TransferHeader wire layout of
§6 — `pin (6 ASCII digits) | filenameLength (4-byte big-endian) |
filename (UTF-8) | fileSize (8-byte big-endian)`. This layout exists
nowhere in the source (the `nc` pipe carries raw file bytes only); it is
used solely to build concrete connection contents that *would* carry a
header under the spec's encoding, to evaluate the code on them. -/
def specTransferHeader (pin filename : String) (size : Nat) : List Nat :=
  utf8Encode pin ++ natToBE 4 (utf8Encode filename).length ++
    utf8Encode filename ++ natToBE 8 size

/-! ## Application PIN state machine (for the PIN shape invariant) -/

/-- The mutable application state touched by the handlers: the session
PIN (`self.pin_code`), the peer dict (`self.discovered_peers`) and the
local IP (`self.local_ip`, set once in `__init__` and never changed). -/
structure AppState : Type where
  local_ip : String
  pin_code : String
  discovered_peers : Peers

/-- `__init__` (lines 67-78): `self.pin_code = self.generate_pin()` with
draws `cs`; `self.discovered_peers = {}`. -/
def init_app (ip : String) (cs : Fin 6 → Fin 10) : AppState :=
  { local_ip := ip, pin_code := generate_pin cs, discovered_peers := fun _ => none }

/-- The state-touching events of the application:
`refresh_pin` (lines 536-540), one discovery datagram handled by the
listener loop, a `broadcast_discovery` click, a `send_file` run and a
`start_receiving` run. Only `refresh_pin` writes `pin_code`; only the
listener writes `discovered_peers`; the transfer handlers touch neither. -/
inductive AppEvent : Type
  | refreshPinEv (cs : Fin 6 → Fin 10)
  | datagramEv (d : List Nat)
  | broadcastEv
  | sendFileEv (ip pin : String) (fileBytes : List Nat)
  | receiveEv (pin folder ts : String) (incoming : List Nat) (exitCode : Nat)

/-- Effect of one event on the application state. -/
def app_step (st : AppState) : AppEvent → AppState
  | .refreshPinEv cs => { st with pin_code := generate_pin cs }
  | .datagramEv d => { st with discovered_peers := (discovery_step st.discovered_peers d).1 }
  | .broadcastEv => st
  | .sendFileEv _ _ _ => st
  | .receiveEv _ _ _ _ _ => st

/-- A PIN of the shape the application promises: exactly 6 ASCII decimal
digit characters. -/
def pin_ok (s : String) : Prop :=
  s.data.length = 6 ∧ ∀ c ∈ s.data, c.isDigit

/-! ## Helper lemmas -/

theorem pySplit_no_sep (sep : Char) (l : List Char) (h : sep ∉ l) :
    pySplit sep l = [l] := by
  induction l with
  | nil => rfl
  | cons c rest ih =>
    have hc : ¬ c = sep := fun hcs => h (hcs ▸ List.mem_cons_self c rest)
    have hr : sep ∉ rest := fun hm => h (List.mem_cons_of_mem c hm)
    simp only [pySplit, if_neg hc, ih hr]

theorem pySplit_sep_append (sep : Char) (xs ys : List Char) (h : sep ∉ xs) :
    pySplit sep (xs ++ sep :: ys) = xs :: pySplit sep ys := by
  induction xs with
  | nil => simp [pySplit]
  | cons c xs' ih =>
    have hc : ¬ c = sep := fun hcs => h (hcs ▸ List.mem_cons_self c xs')
    have hr : sep ∉ xs' := fun hm => h (List.mem_cons_of_mem c hm)
    rw [List.cons_append, pySplit, if_neg hc, ih hr]

theorem startsWithList_self_append {α : Type} [DecidableEq α] (p t : List α) :
    startsWithList p (p ++ t) = true := by
  induction p with
  | nil => rfl
  | cons a p' ih => simp [startsWithList, ih]

theorem utf8EncodeChar_ascii (c : Char) (h : c.toNat < 128) :
    utf8EncodeChar c = [c.toNat] := by
  rw [utf8EncodeChar, if_pos h]

theorem utf8EncodeList_ascii (l : List Char) (h : ∀ c ∈ l, c.toNat < 128) :
    utf8EncodeList l = l.map Char.toNat := by
  induction l with
  | nil => rfl
  | cons c cs ih =>
    have hc : c.toNat < 128 := h c (List.mem_cons_self c cs)
    have hcs : ∀ x ∈ cs, x.toNat < 128 := fun x hx => h x (List.mem_cons_of_mem c hx)
    rw [utf8EncodeList, utf8EncodeChar_ascii c hc, ih hcs, List.map_cons,
      List.singleton_append]

theorem utf8DecodeAux_ascii (l : List Char) :
    ∀ fuel, l.length ≤ fuel → (∀ c ∈ l, c.toNat < 128) →
      utf8DecodeAux fuel (l.map Char.toNat) = some l := by
  induction l with
  | nil => intro fuel _ _; cases fuel <;> rfl
  | cons c cs ih =>
    intro fuel hfuel h
    have hc : c.toNat < 128 := h c (List.mem_cons_self c cs)
    have hcs : ∀ x ∈ cs, x.toNat < 128 := fun x hx => h x (List.mem_cons_of_mem c hx)
    match fuel, hfuel with
    | f + 1, hfuel =>
      have hf : cs.length ≤ f := by simpa using hfuel
      rw [List.map_cons, utf8DecodeAux]
      unfold utf8DecodeStep
      rw [if_pos hc, ih f hf hcs, Option.map_some', Char.ofNat_toNat]

theorem utf8Decode_ascii (l : List Char) (h : ∀ c ∈ l, c.toNat < 128) :
    utf8Decode (utf8EncodeList l) = some l := by
  rw [utf8EncodeList_ascii l h, utf8Decode, List.length_map]
  exact utf8DecodeAux_ascii l l.length le_rfl h

/-- Decimal digit characters are ASCII and are not a colon. -/
theorem digit_ascii_ne_colon (c : Char) (h : c.isDigit = true) :
    c.toNat < 128 ∧ c ≠ ':' := by
  simp only [Char.isDigit, Bool.and_eq_true, decide_eq_true_eq] at h
  have h9 : c.toNat ≤ 57 := h.2
  refine ⟨by omega, fun hc => absurd h9 ?_⟩
  subst hc
  decide

/-- The characters of a dotted-decimal string (digits and dots only) are
ASCII and contain no colon. -/
theorem dotted_ascii_ne_colon (c : Char) (h : c = '.' ∨ c.isDigit = true) :
    c.toNat < 128 ∧ c ≠ ':' := by
  cases h with
  | inl h => subst h; exact ⟨by decide, by decide⟩
  | inr h => exact digit_ascii_ne_colon c h

theorem discovery_message_data (ip pin : String) :
    (discovery_message ip pin).data =
      "DISCOVERY".data ++ ':' :: (ip.data ++ ':' :: pin.data) := by
  show ((("DISCOVERY:" ++ ip) ++ ":") ++ pin).data = _
  rw [String.data_append, String.data_append, String.data_append]
  have h1 : "DISCOVERY:".data = "DISCOVERY".data ++ [':'] := rfl
  have h2 : ":".data = [':'] := rfl
  rw [h1, h2]
  simp [List.append_assoc]

theorem discovery_message_ascii (ip pin : String)
    (hip : ∀ c ∈ ip.data, c.toNat < 128) (hpin : ∀ c ∈ pin.data, c.toNat < 128) :
    ∀ c ∈ (discovery_message ip pin).data, c.toNat < 128 := by
  intro c hc
  rw [discovery_message_data] at hc
  rcases List.mem_append.mp hc with h | h
  · exact (by decide : ∀ x ∈ "DISCOVERY".data, x.toNat < 128) c h
  · rcases List.mem_cons.mp h with h | h
    · subst h; decide
    · rcases List.mem_append.mp h with h | h
      · exact hip c h
      · rcases List.mem_cons.mp h with h | h
        · subst h; decide
        · exact hpin c h

/-- The key discovery round trip: the exact datagram text put on the
wire by `broadcast_discovery`, when handled by the listener loop, is
decoded, passes the prefix test, splits into exactly three fields and
upserts `ip -> pin` into the peer dict. -/
theorem discovery_step_message (peers : Peers) (ip pin : String)
    (hip : ∀ c ∈ ip.data, c.toNat < 128 ∧ c ≠ ':')
    (hpin : ∀ c ∈ pin.data, c.toNat < 128 ∧ c ≠ ':') :
    startsWithList discoveryTag (discovery_message ip pin).data = true ∧
    pySplit ':' (discovery_message ip pin).data = ["DISCOVERY".data, ip.data, pin.data] ∧
    discovery_step peers (utf8Encode (discovery_message ip pin)) =
      (dictInsert peers ip pin, .upserted ip pin) := by
  have hipc : ':' ∉ ip.data := fun hm => absurd rfl (hip _ hm).2
  have hpinc : ':' ∉ pin.data := fun hm => absurd rfl (hpin _ hm).2
  have hascii : ∀ c ∈ (discovery_message ip pin).data, c.toNat < 128 :=
    discovery_message_ascii ip pin (fun c hc => (hip c hc).1) (fun c hc => (hpin c hc).1)
  have hdecode : utf8Decode (utf8Encode (discovery_message ip pin)) =
      some (discovery_message ip pin).data := utf8Decode_ascii _ hascii
  have hstart : startsWithList discoveryTag (discovery_message ip pin).data = true := by
    rw [discovery_message_data]
    exact startsWithList_self_append discoveryTag (ip.data ++ ':' :: pin.data)
  have hsplit : pySplit ':' (discovery_message ip pin).data =
      ["DISCOVERY".data, ip.data, pin.data] := by
    rw [discovery_message_data]
    have hD : ':' ∉ "DISCOVERY".data := by decide
    rw [show ("DISCOVERY".data ++ ':' :: (ip.data ++ ':' :: pin.data)) =
        ("DISCOVERY".data ++ ':' :: (ip.data ++ ':' :: pin.data)) from rfl,
      pySplit_sep_append ':' _ _ hD, pySplit_sep_append ':' _ _ hipc,
      pySplit_no_sep ':' _ hpinc]
  refine ⟨hstart, hsplit, ?_⟩
  unfold discovery_step
  rw [hdecode]
  simp only [hstart, hsplit, if_true]

theorem dictInsert_same (m : Peers) (k v : String) : dictInsert m k v k = some v := by
  simp [dictInsert]

/-- Reduction of `discovery_step` once the datagram is known to decode. -/
theorem discovery_step_decoded (peers : Peers) (d : List Nat) (msg : List Char)
    (h : utf8Decode d = some msg) :
    discovery_step peers d =
      (if startsWithList discoveryTag msg then
        match pySplit ':' msg with
        | _ :: p1 :: p2 :: _ =>
          (dictInsert peers (String.mk p1) (String.mk p2),
           StepResult.upserted (String.mk p1) (String.mk p2))
        | _ => (peers, StepResult.droppedSilently)
      else (peers, StepResult.droppedSilently)) := by
  unfold discovery_step
  rw [h]

theorem broadcast_ip_quad (ip : String) (a b c d : List Char)
    (ha : '.' ∉ a) (hb : '.' ∉ b) (hc : '.' ∉ c) (hd : '.' ∉ d)
    (hip : ip.data = a ++ '.' :: (b ++ '.' :: (c ++ '.' :: d))) :
    broadcast_ip ip = String.mk (a ++ '.' :: (b ++ '.' :: c)) ++ ".255" := by
  unfold broadcast_ip
  rw [hip, pySplit_sep_append '.' _ _ ha, pySplit_sep_append '.' _ _ hb,
    pySplit_sep_append '.' _ _ hc, pySplit_no_sep '.' _ hd]
  rfl

theorem generate_pin_len (cs : Fin 6 → Fin 10) : (generate_pin cs).data.length = 6 := by
  simp [generate_pin]

theorem generate_pin_digits (cs : Fin 6 → Fin 10) :
    ∀ c ∈ (generate_pin cs).data, c.isDigit = true := by
  intro c hc
  simp only [generate_pin, List.mem_map] at hc
  obtain ⟨i, _, rfl⟩ := hc
  exact (by decide : ∀ x ∈ string_digits.data, x.isDigit = true) _
    (string_digits.data.get_mem _ _)

theorem string_append_left_cancel (a b c : String) (h : a ++ b = a ++ c) : b = c := by
  have hd : (a ++ b).data = (a ++ c).data := congrArg String.data h
  rw [String.data_append, String.data_append] at hd
  have hbc := List.append_cancel_left hd
  cases b
  cases c
  exact congrArg String.mk hbc

theorem pyJoin_name_inj (folder n1 n2 : String) (h : pyJoin folder n1 = pyJoin folder n2) :
    n1 = n2 := by
  unfold pyJoin at h
  by_cases h0 : folder = ""
  · rwa [if_pos h0, if_pos h0] at h
  · rw [if_neg h0, if_neg h0] at h
    by_cases h1 : folder.data.getLast? = some '/'
    · rw [if_pos h1, if_pos h1] at h
      exact string_append_left_cancel folder n1 n2 h
    · rw [if_neg h1, if_neg h1] at h
      exact string_append_left_cancel _ _ _ h

/-! ## Claims -/

/-- **C1** (code bug exhibited). Evaluating `start_receiving` on an
incoming connection whose bytes begin with a header, in the spec's
recommended layout, carrying pin `"000000"` while the expected pin is
`"123456"`: the code accepts the connection anyway, creates the
destination file under the save directory, writes every incoming byte to
it (header included) and reports success. There is no `AuthError`
outcome anywhere in the code: the expected pin is read and logged but
never compared. The claim that a pin mismatch is rejected with
`AuthError` and no file written describes the intended behavior, not
the code. -/
theorem c1_pin_mismatch_accepted :
    ("000000" : String) ≠ "123456" ∧
    start_receiving "123456" "/tmp/out" "20260101_120000"
        (specTransferHeader "000000" "f.txt" 2 ++ [97, 98]) 0 =
      some { savePath := "/tmp/out/received_file_20260101_120000",
             written := specTransferHeader "000000" "f.txt" 2 ++ [97, 98],
             outcome := .success } ∧
    specTransferHeader "000000" "f.txt" 2 ++ [97, 98] ≠ [] := by
  refine ⟨by decide, rfl, by decide⟩

/-- **C2** (counterexample). A connection carrying, under the spec's
recommended layout, a header declaring `size = 1` followed by 2 payload
bytes (21 bytes in all): the receiver writes all 21 bytes — its byte
counter exceeds the declared size — and reports success, not
`ProtocolError`. -/
theorem c2_counterexample :
    (start_receiving "123456" "/tmp" "20260101_000000"
        (specTransferHeader "482913" "f" 1 ++ [97, 98]) 0).map ReceiveResult.written =
      some (specTransferHeader "482913" "f" 1 ++ [97, 98]) ∧
    (specTransferHeader "482913" "f" 1 ++ [97, 98]).length = 21 ∧
    (start_receiving "123456" "/tmp" "20260101_000000"
        (specTransferHeader "482913" "f" 1 ++ [97, 98]) 0).map ReceiveResult.outcome =
      some .success := by
  decide

/-- **C2** (amended): the receiver has no notion of a declared size: for
any non-empty expected pin, any save folder and timestamp and any
incoming stream, it writes exactly the bytes received until the
connection closes and (when `nc` exits 0) reports success; no
`IncompleteTransferError` or `ProtocolError` outcome exists. -/
theorem c2_receiver_writes_everything (pin folder ts : String) (incoming : List Nat)
    (hpin : pin ≠ "") :
    start_receiving pin folder ts incoming 0 =
      some { savePath := pyJoin folder ("received_file_" ++ ts),
             written := incoming, outcome := .success } := by
  unfold start_receiving
  rw [if_neg hpin]
  rfl

theorem c2_witness :
    start_receiving "111111" "/tmp" "20260101_000001" [1, 2, 3] 0 =
      some { savePath := pyJoin "/tmp" ("received_file_" ++ "20260101_000001"),
             written := [1, 2, 3], outcome := .success } :=
  c2_receiver_writes_everything "111111" "/tmp" "20260101_000001" [1, 2, 3] (by decide)

/-- **C3** (counterexample). With pin `"123456"` and a 2-byte source
file `"ab"`, the bytes transmitted on the TCP connection are exactly the
2 file bytes; no TransferHeader is written and the pin's UTF-8 bytes do
not occur anywhere in the stream. -/
theorem c3_counterexample :
    send_file "10.0.0.2" "123456" [97, 98] =
      some { dest := ("10.0.0.2", 12345), stream := [97, 98] } ∧
    bytesContain (utf8Encode "123456") [97, 98] = false := by
  decide

/-- **C3** (amended): for non-empty receiver IP and pin entries,
`send_file` opens one TCP connection to `(ip, 12345)` and streams the
file's bytes verbatim with no header of any kind; the pin is read from
the GUI but never transmitted. -/
theorem c3_send_streams_raw_bytes (ip pin : String) (fileBytes : List Nat)
    (hip : ip ≠ "") (hpin : pin ≠ "") :
    send_file ip pin fileBytes = some { dest := (ip, 12345), stream := fileBytes } := by
  unfold send_file
  rw [if_neg hip, if_neg hpin]

theorem c3_witness :
    send_file "192.168.1.5" "000000" [1, 2, 3] =
      some { dest := ("192.168.1.5", 12345), stream := [1, 2, 3] } :=
  c3_send_streams_raw_bytes "192.168.1.5" "000000" [1, 2, 3] (by decide) (by decide)

/-- **C4** (confirmed). For any non-empty ip and pin, a readable source
file with contents `fileBytes` and any save folder and timestamp:
`send_file` produces one connection to `(ip, 12345)`, and a listening
`start_receiving` with the same pin, consuming exactly the stream that
`send_file` transmitted, writes the original bytes to the file at the
path it reports, succeeding. The received file is byte-for-byte the
source file. -/
theorem c4_send_receive_roundtrip (ip p folder ts : String) (fileBytes : List Nat)
    (hip : ip ≠ "") (hp : p ≠ "") :
    ∀ s, send_file ip p fileBytes = some s →
      s.dest = (ip, 12345) ∧
      start_receiving p folder ts s.stream 0 =
        some { savePath := pyJoin folder ("received_file_" ++ ts),
               written := fileBytes, outcome := .success } := by
  intro s hs
  unfold send_file at hs
  rw [if_neg hip, if_neg hp] at hs
  obtain rfl : ({ dest := (ip, 12345), stream := fileBytes } : SendAttempt) = s :=
    Option.some.inj hs
  refine ⟨rfl, ?_⟩
  unfold start_receiving
  rw [if_neg hp]
  rfl

theorem c4_witness :
    start_receiving "482913" "/tmp/out" "20260101_120000"
        (SendAttempt.mk ("127.0.0.1", 12345) [104, 105]).stream 0 =
      some { savePath := pyJoin "/tmp/out" ("received_file_" ++ "20260101_120000"),
             written := [104, 105], outcome := .success } :=
  (c4_send_receive_roundtrip "127.0.0.1" "482913" "/tmp/out" "20260101_120000"
    [104, 105] (by decide) (by decide)
    (SendAttempt.mk ("127.0.0.1", 12345) [104, 105]) rfl).2

/-- **C5** (counterexample). Two distinct receive operations — different
expected pins and different incoming payloads — started within the same
second (same `%Y%m%d_%H%M%S` timestamp) and with the same save folder
write to the identical destination file
`/tmp/out/received_file_20260101_120000`. -/
theorem c5_counterexample :
    (start_receiving "123456" "/tmp/out" "20260101_120000" [97] 0).map
        ReceiveResult.savePath = some "/tmp/out/received_file_20260101_120000" ∧
    (start_receiving "654321" "/tmp/out" "20260101_120000" [98] 0).map
        ReceiveResult.savePath = some "/tmp/out/received_file_20260101_120000" ∧
    ([97] : List Nat) ≠ [98] := by
  decide

/-- **C5** (amended): every successful receive writes its payload to the
file `received_file_<timestamp>` under the given save directory and
reports that path; the naming scheme avoids collisions only between
receives with distinct (second-granularity) timestamps — two receives
with different timestamps never write to the same destination file. -/
theorem c5_save_path_timestamped (pin folder ts1 ts2 : String) (s1 s2 : List Nat)
    (hpin : pin ≠ "") (hts : ts1 ≠ ts2) :
    (start_receiving pin folder ts1 s1 0).map ReceiveResult.savePath =
      some (pyJoin folder ("received_file_" ++ ts1)) ∧
    (start_receiving pin folder ts2 s2 0).map ReceiveResult.savePath =
      some (pyJoin folder ("received_file_" ++ ts2)) ∧
    pyJoin folder ("received_file_" ++ ts1) ≠ pyJoin folder ("received_file_" ++ ts2) := by
  refine ⟨?_, ?_, ?_⟩
  · unfold start_receiving
    rw [if_neg hpin]
    rfl
  · unfold start_receiving
    rw [if_neg hpin]
    rfl
  · intro h
    exact hts (string_append_left_cancel "received_file_" ts1 ts2
      (pyJoin_name_inj folder _ _ h))

theorem c5_witness :
    (start_receiving "482913" "/tmp/out" "20260101_120000" [97] 0).map
        ReceiveResult.savePath =
      some (pyJoin "/tmp/out" ("received_file_" ++ "20260101_120000")) ∧
    pyJoin "/tmp/out" ("received_file_" ++ "20260101_120000") ≠
      pyJoin "/tmp/out" ("received_file_" ++ "20260101_120001") :=
  ⟨(c5_save_path_timestamped "482913" "/tmp/out" "20260101_120000" "20260101_120001"
      [97] [98] (by decide) (by decide)).1,
   (c5_save_path_timestamped "482913" "/tmp/out" "20260101_120000" "20260101_120001"
      [97] [98] (by decide) (by decide)).2.2⟩

/-- **C6** (counterexample). The one-byte datagram `0xFF` is not
decodable as UTF-8 ("otherwise unparsable"), and the listener does not
drop it silently: the raised `UnicodeDecodeError` is caught and surfaced
as a logged `"Discovery error: ..."` message. -/
theorem c6_counterexample :
    (discovery_step (fun _ => none) [255]).2 = StepResult.decodeErrorLogged ∧
    StepResult.decodeErrorLogged ≠ StepResult.droppedSilently := by
  decide

/-- **C6** (amended): a well-formed datagram (prefix `DISCOVERY:`, at
least three colon fields) upserts `parts[1] -> parts[2]` into the peer
mapping; a decodable datagram with the wrong prefix or too few fields is
dropped silently with no state change; a datagram that fails UTF-8
decoding is not upserted and does not stop the listener, but it is
surfaced as a logged discovery error rather than dropped silently. -/
theorem c6_listener_datagram_cases (peers : Peers) (d : List Nat) :
    (utf8Decode d = none → discovery_step peers d = (peers, .decodeErrorLogged)) ∧
    (∀ msg, utf8Decode d = some msg → startsWithList discoveryTag msg = false →
      discovery_step peers d = (peers, .droppedSilently)) ∧
    (∀ msg, utf8Decode d = some msg → (pySplit ':' msg).length < 3 →
      discovery_step peers d = (peers, .droppedSilently)) ∧
    (∀ msg p0 p1 p2 rest, utf8Decode d = some msg →
      startsWithList discoveryTag msg = true →
      pySplit ':' msg = p0 :: p1 :: p2 :: rest →
      discovery_step peers d =
        (dictInsert peers (String.mk p1) (String.mk p2),
         .upserted (String.mk p1) (String.mk p2))) := by
  refine ⟨?_, ?_, ?_, ?_⟩
  · intro h
    unfold discovery_step
    rw [h]
  · intro msg h hsw
    rw [discovery_step_decoded peers d msg h]
    simp only [hsw, Bool.false_eq_true, if_false]
  · intro msg h hlen
    rw [discovery_step_decoded peers d msg h]
    rcases hps : pySplit ':' msg with _ | ⟨p0, _ | ⟨p1, _ | ⟨p2, rest⟩⟩⟩
    · split_ifs <;> rfl
    · split_ifs <;> rfl
    · split_ifs <;> rfl
    · rw [hps] at hlen
      simp only [List.length_cons] at hlen
      omega
  · intro msg p0 p1 p2 rest h hsw hps
    rw [discovery_step_decoded peers d msg h, hps]
    simp only [hsw, if_true]

theorem c6_witness :
    discovery_step (fun _ => none) (utf8Encode (discovery_message "1.2.3.4" "123456")) =
      (dictInsert (fun _ => none) "1.2.3.4" "123456",
       StepResult.upserted "1.2.3.4" "123456") :=
  (c6_listener_datagram_cases (fun _ => none)
      (utf8Encode (discovery_message "1.2.3.4" "123456"))).2.2.2
    "DISCOVERY:1.2.3.4:123456".data "DISCOVERY".data "1.2.3.4".data "123456".data []
    (by decide) (by decide) (by decide)

/-- **C7** (confirmed). For every local IP of dotted-quad shape
`a.b.c.d` (no further dots inside the four octet fields) and every pin:
`broadcast_discovery` sends exactly one UDP datagram, its destination is
`(a.b.c.255, 12346)` — the last octet replaced by `255` — and its
content is exactly the UTF-8 encoding of `DISCOVERY:<localIp>:<pin>`,
with nothing appended. -/
theorem c7_broadcast_single_datagram (ip pin : String) (a b c d : List Char)
    (ha : '.' ∉ a) (hb : '.' ∉ b) (hc : '.' ∉ c) (hd : '.' ∉ d)
    (hip : ip.data = a ++ '.' :: (b ++ '.' :: (c ++ '.' :: d))) :
    broadcast_discovery ip pin =
      [((String.mk (a ++ '.' :: (b ++ '.' :: c)) ++ ".255", 12346),
        utf8Encode (discovery_message ip pin))] := by
  unfold broadcast_discovery
  rw [broadcast_ip_quad ip a b c d ha hb hc hd hip]

theorem c7_witness :
    broadcast_discovery "192.168.1.42" "482913" =
      [((String.mk ("192".data ++ '.' :: ("168".data ++ '.' :: "1".data)) ++ ".255", 12346),
        utf8Encode (discovery_message "192.168.1.42" "482913"))] :=
  c7_broadcast_single_datagram "192.168.1.42" "482913"
    "192".data "168".data "1".data "42".data
    (by decide) (by decide) (by decide) (by decide) (by decide)

/-- **C8** (confirmed). Two broadcast calls from the same host with
different digit PINs each produce exactly one datagram, and a listener
that handles both datagrams in order ends with its peer mapping holding,
for that host's IP, the PIN of the later broadcast: the dict write is a
last-write-wins upsert keyed by IP. -/
theorem c8_last_write_wins (ip pin1 pin2 : String) (peers : Peers)
    (hip : ∀ c ∈ ip.data, c = '.' ∨ c.isDigit = true)
    (h1 : ∀ c ∈ pin1.data, c.isDigit = true)
    (h2 : ∀ c ∈ pin2.data, c.isDigit = true)
    (hne : pin1 ≠ pin2) :
    (broadcast_discovery ip pin1).length = 1 ∧
    (broadcast_discovery ip pin2).length = 1 ∧
    (((broadcast_discovery ip pin1 ++ broadcast_discovery ip pin2).map Prod.snd).foldl
        (fun ps d => (discovery_step ps d).1) peers) ip = some pin2 := by
  have hip' : ∀ c ∈ ip.data, c.toNat < 128 ∧ c ≠ ':' :=
    fun c hc => dotted_ascii_ne_colon c (hip c hc)
  have h1' : ∀ c ∈ pin1.data, c.toNat < 128 ∧ c ≠ ':' :=
    fun c hc => digit_ascii_ne_colon c (h1 c hc)
  have h2' : ∀ c ∈ pin2.data, c.toNat < 128 ∧ c ≠ ':' :=
    fun c hc => digit_ascii_ne_colon c (h2 c hc)
  refine ⟨rfl, rfl, ?_⟩
  show (discovery_step (discovery_step peers (utf8Encode (discovery_message ip pin1))).1
      (utf8Encode (discovery_message ip pin2))).1 ip = some pin2
  rw [(discovery_step_message peers ip pin1 hip' h1').2.2]
  show (discovery_step (dictInsert peers ip pin1)
      (utf8Encode (discovery_message ip pin2))).1 ip = some pin2
  rw [(discovery_step_message (dictInsert peers ip pin1) ip pin2 hip' h2').2.2]
  exact dictInsert_same _ ip pin2

theorem c8_witness :
    (((broadcast_discovery "10.0.0.7" "111111" ++ broadcast_discovery "10.0.0.7" "222222").map
        Prod.snd).foldl (fun ps d => (discovery_step ps d).1) (fun _ => none)) "10.0.0.7" =
      some "222222" :=
  (c8_last_write_wins "10.0.0.7" "111111" "222222" (fun _ => none)
    (by decide) (by decide) (by decide) (by decide)).2.2

/-- **C9** (confirmed). For every local IP that is a dotted-decimal
string (digits and dots, hence no colons) and every PIN produced by
`generate_pin`: the single datagram built by `broadcast_discovery`
carries the text `DISCOVERY:<ip>:<pin>`, which the listener's parser
accepts as well-formed — it starts with the `DISCOVERY:` prefix and
splits into exactly three colon fields — so handling it upserts
`ip -> pin` into the peer mapping: broadcast and parse round-trip. -/
theorem c9_broadcast_parse_roundtrip (ip : String) (cs : Fin 6 → Fin 10) (peers : Peers)
    (hip : ∀ c ∈ ip.data, c = '.' ∨ c.isDigit = true) :
    broadcast_discovery ip (generate_pin cs) =
      [((broadcast_ip ip, 12346), utf8Encode (discovery_message ip (generate_pin cs)))] ∧
    startsWithList discoveryTag (discovery_message ip (generate_pin cs)).data = true ∧
    (pySplit ':' (discovery_message ip (generate_pin cs)).data).length = 3 ∧
    discovery_step peers (utf8Encode (discovery_message ip (generate_pin cs))) =
      (dictInsert peers ip (generate_pin cs), .upserted ip (generate_pin cs)) ∧
    (discovery_step peers (utf8Encode (discovery_message ip (generate_pin cs)))).1 ip =
      some (generate_pin cs) := by
  have hip' : ∀ c ∈ ip.data, c.toNat < 128 ∧ c ≠ ':' :=
    fun c hc => dotted_ascii_ne_colon c (hip c hc)
  have hpin' : ∀ c ∈ (generate_pin cs).data, c.toNat < 128 ∧ c ≠ ':' :=
    fun c hc => digit_ascii_ne_colon c (generate_pin_digits cs c hc)
  obtain ⟨hs, hsp, hstep⟩ := discovery_step_message peers ip (generate_pin cs) hip' hpin'
  refine ⟨rfl, hs, by rw [hsp]; rfl, hstep, ?_⟩
  rw [hstep]
  exact dictInsert_same _ ip (generate_pin cs)

theorem c9_witness :
    (discovery_step (fun _ => none)
        (utf8Encode (discovery_message "192.168.1.7" (generate_pin fun _ => 3)))).1
        "192.168.1.7" =
      some (generate_pin fun _ => 3) :=
  (c9_broadcast_parse_roundtrip "192.168.1.7" (fun _ => 3) (fun _ => none)
    (by decide)).2.2.2.2

/-- **C10** (confirmed). Every PIN value the application ever holds is a
string of exactly 6 ASCII decimal digits: the initial `generate_pin` in
`__init__` and every `refresh_pin` produce such a string, and no other
event writes `pin_code`, so the invariant holds after any sequence of
application events. -/
theorem c10_pin_always_six_digits (ip : String) (cs : Fin 6 → Fin 10)
    (evs : List AppEvent) :
    pin_ok ((evs.foldl app_step (init_app ip cs)).pin_code) := by
  have hgen : ∀ cs' : Fin 6 → Fin 10, pin_ok (generate_pin cs') :=
    fun cs' => ⟨generate_pin_len cs', generate_pin_digits cs'⟩
  have hstep : ∀ (evs' : List AppEvent) (st : AppState), pin_ok st.pin_code →
      pin_ok ((evs'.foldl app_step st).pin_code) := by
    intro evs'
    induction evs' with
    | nil => exact fun st h => h
    | cons e rest ih =>
      intro st hst
      rw [List.foldl_cons]
      apply ih
      cases e with
      | refreshPinEv cs' => exact hgen cs'
      | datagramEv d => exact hst
      | broadcastEv => exact hst
      | sendFileEv ip' pin' fb => exact hst
      | receiveEv p f t inc ec => exact hst
  exact hstep evs (init_app ip cs) (hgen cs)

end NetcatTransfer
